import Mathlib

/-!
Verification of the revision-tracked building store of `app/src/building.js`
(colouring-london). JavaScript objects are embedded as association lists of
scalar values; the database transactions are embedded as explicit state
passing over a `DBState`, with each transaction an atomic all-or-nothing
step (pg-promise `db.tx` commits or rolls back as a unit).
-/

namespace ColouringLondon

/-- JavaScript scalar values as they occur in building records: `undefined`,
`null`, booleans, numbers and strings. Strict equality (`!==`) is structural
equality on this type. -/
inductive JVal where
  | undef : JVal
  | null : JVal
  | bool : Bool → JVal
  | num : Int → JVal
  | str : String → JVal
deriving DecidableEq, Repr

/-- A JavaScript object: ordered key-value pairs (a JS object never holds the
same key twice). -/
abbrev JObj := List (String × JVal)

/-- JS property read `o[k]`: the stored value, or `undefined` when the key is
absent. -/
def lookupJ (o : JObj) (k : String) : JVal :=
  match o.find? (fun kv => kv.1 = k) with
  | some kv => kv.2
  | none => JVal.undef

/-- Whether the object carries the key. -/
def hasKeyJ (o : JObj) (k : String) : Bool :=
  o.any (fun kv => kv.1 = k)

/-- JS property assignment `o[k] = v`: overwrite in place when the key exists,
otherwise append (JS objects keep insertion order). -/
def objSet : JObj → String → JVal → JObj
  | [], k, v => [(k, v)]
  | kv :: rest, k, v =>
      if kv.1 = k then (k, v) :: rest else kv :: objSet rest k v

/-- JS `delete o[k]`. -/
def objDelete (o : JObj) (k : String) : JObj :=
  o.filter (fun kv => ¬ kv.1 = k)

/-- The fixed whitelist of mutable scalar fields
(`BUILDING_FIELD_WHITELIST`, building.js lines 183-209). -/
def BUILDING_FIELD_WHITELIST : List String :=
  [ "ref_toid", "ref_osm_id", "location_name", "location_number",
    "location_street", "location_line_two", "location_town",
    "location_postcode", "location_latitude", "location_longitude",
    "date_year", "date_lower", "date_upper", "date_source",
    "facade_year", "facade_upper", "facade_lower", "facade_source",
    "size_storeys_attic", "size_storeys_core", "size_storeys_basement",
    "size_height_apex", "size_floor_area_ground", "size_floor_area_total",
    "size_width_frontage" ]

/-- Loop body of `compare` (building.js lines 224-229): walk the entries of
`new_obj`, and for each entry whose key is whitelisted and whose value differs
strictly from `old_obj[key]`, record the new value in the forward patch and
the old value in the reverse patch. -/
def compareAux (old_obj : JObj) (whitelist : List String) :
    List (String × JVal) → JObj → JObj → JObj × JObj
  | [], forward_patch, reverse_patch => (forward_patch, reverse_patch)
  | (key, value) :: rest, forward_patch, reverse_patch =>
      if lookupJ old_obj key ≠ value ∧ key ∈ whitelist then
        compareAux old_obj whitelist rest
          (objSet forward_patch key value)
          (objSet reverse_patch key (lookupJ old_obj key))
      else
        compareAux old_obj whitelist rest forward_patch reverse_patch

/-- `compare(old_obj, new_obj, whitelist)` (building.js lines 221-231):
returns the pair `(forward_patch, reverse_patch)`. -/
def compare (old_obj new_obj : JObj) (whitelist : List String) : JObj × JObj :=
  compareAux old_obj whitelist new_obj [] []

/-- Shallow merge: apply each patch assignment in order, as the SQL
`SET $2:raw` built from `pgp.helpers.sets(forward)` does. -/
def applyPatch (o : JObj) (p : JObj) : JObj :=
  p.foldl (fun acc kv => objSet acc kv.1 kv.2) o

/-- One row of the append-only `logs` table. `log_id` is assigned from the
store's sequence; `reverse_patch` is absent for the like path (its INSERT
names only `forward_patch`). -/
structure LogEntry where
  log_id : Int
  forward_patch : JObj
  reverse_patch : Option JObj
  building_id : Int
  user_id : Int
deriving DecidableEq, Repr

/-- The database state touched by building.js: the `buildings` rows (each a
row of named columns), the `logs` table, the `building_user_likes` fact table
and the next value of the `log_id` sequence. -/
structure DBState where
  buildings : List JObj
  logs : List LogEntry
  building_user_likes : List (Int × Int)
  next_log_id : Int
deriving DecidableEq, Repr

/-- Whether the infrastructure fails during the transaction; any such failure
is caught by the `.catch` handler, which rolls the transaction back and
returns `undefined`. -/
inductive StoreEvent where
  | ok : StoreEvent
  | fail : StoreEvent
deriving DecidableEq, Repr

/-- The WHERE clause `building_id = $1 and revision_id = $2` carried by both
queries of `saveBuilding` (lines 97 and 119-120): a stored row matches when
its id is the requested one and its revision equals the caller's expected
revision. Used to state the no-match (conflict) situation. -/
def rowMatches (building_id : Int) (revision : JVal) (row : JObj) : Bool :=
  decide (lookupJ row "building_id" = JVal.num building_id ∧
          lookupJ row "revision_id" = revision)

/-- The read-only field removal of building.js lines 86-88: the three
`delete` statements mutate the caller's object before the transaction. -/
def stripReadOnly (building : JObj) : JObj :=
  objDelete (objDelete (objDelete building "building_id") "revision_id") "geometry_id"

/-- `saveBuilding(building_id, building, user_id)` (building.js lines 78-133),
returning the call's result (`none` is the `undefined` of the catch handler),
the caller's `building` object after the in-place deletes, and the database
state after the transaction.

The deletes of lines 86-88 run before `db.tx`. The transaction's first
statement is the query of line 97,
`SELECT * FOR UPDATE FROM buildings WHERE building_id = $1 and revision_id = $2;`.
PostgreSQL's grammar places the locking clause after the FROM/WHERE clauses
(`SELECT ... FROM ... WHERE ... FOR UPDATE`); here `FOR UPDATE` ends the
select list before `FROM`, so the server raises a syntax error on every
execution of this statement. The transaction therefore aborts before any row
is read — whether or not a row matches `(building_id, revision_id)` — `db.tx`
rolls back, and the catch handler (lines 128-132) returns `undefined`. The
compare / log-INSERT / UPDATE steps of lines 100-126 are unreachable: the
protocol has no commit path, and an infrastructure failure lands in the same
catch handler with the same result. -/
def saveBuilding (ev : StoreEvent) (building_id : Int) (building : JObj)
    (user_id : Int) (s : DBState) : Option JObj × JObj × DBState :=
  let building' := stripReadOnly building
  match ev with
  | .fail => (none, building', s)
  | .ok => (none, building', s)

/-- `likeBuilding(building_id, user_id)` (building.js lines 136-181): the
transaction inserts the like fact, recounts the likes from the fact table,
appends a forward-only log entry and updates the row's counter and revision
marker; the catch handler (lines 176-180) turns any abort into `undefined`.

Modelled from the spec: the `building_user_likes` table carries a uniqueness
constraint on `(building_id, user_id)` — the table schema is not under the
sources provided — so a duplicate insert raises and aborts the transaction.

On the non-duplicate path the fact INSERT and the count SELECT succeed, but
the logs INSERT of lines 152-159 interpolates `$1:jsonb`: pg-promise has no
`:jsonb` filter — its formatter matches `$1:json` and leaves the stray `b` in
the SQL after the formatted value, a PostgreSQL syntax error — so this INSERT
raises and the whole transaction rolls back as well. Every path thus ends in
the catch handler: the call returns `undefined` and the state is unchanged. -/
def likeBuilding (ev : StoreEvent) (building_id : Int) (user_id : Int)
    (s : DBState) : Option JObj × DBState :=
  match ev with
  | .fail => (none, s)
  | .ok =>
    if (building_id, user_id) ∈ s.building_user_likes then
      (none, s)
    else
      (none, s)

/-- pg-promise isolation levels (`txMode.isolationLevel`). -/
inductive IsolationLevel where
  | levelNone : IsolationLevel
  | serializable : IsolationLevel
  | repeatableRead : IsolationLevel
  | readCommitted : IsolationLevel
deriving DecidableEq, Repr

/-- pg-promise `TransactionMode` (building.js lines 9-16). -/
structure TransactionMode where
  tiLevel : IsolationLevel
  readOnly : Bool
deriving DecidableEq, Repr

/-- The serializable read-write mode constructed at building.js lines 13-16. -/
def serializable : TransactionMode :=
  { tiLevel := IsolationLevel.serializable, readOnly := false }

/-- A pg-promise transaction options object: the recognised options are `tag`
and `mode`; any other property (here one that happens to be named
`serializable`) is just data on the object. -/
structure TxOptions where
  tag : Option String := none
  mode : Option TransactionMode := none
  serializable : Option TransactionMode := none
deriving DecidableEq, Repr

/-- The options object `likeBuilding` passes at building.js line 143:
the ES6 shorthand in the source builds an object with the single
property named `serializable` holding the mode; its `mode` property is
absent. -/
def likeTxOptions : TxOptions :=
  { serializable := some serializable }

/-- Modelled from the pg-promise API: `db.tx(options, cb)` reads the
transaction mode to apply from the `mode` option and from nowhere else; when
it is absent the transaction runs without a mode, at the session default
isolation level. -/
def appliedTxMode (o : TxOptions) : Option TransactionMode :=
  o.mode

/-- N repeated `saveBuilding` calls sharing the same input object (hence the
same expected revision), serialized by the transaction boundary: each
transaction sees the state the previous one left. -/
def runRace (building_id : Int) (building : JObj) (user_id : Int) :
    Nat → DBState → List (Option JObj) × DBState
  | 0, s => ([], s)
  | n + 1, s =>
      let r := saveBuilding .ok building_id building user_id s
      let rest := runRace building_id building user_id n r.2.2
      (r.1 :: rest.1, rest.2)

section ObjLemmas

lemma lookupJ_nil (k : String) : lookupJ [] k = JVal.undef := rfl

lemma lookupJ_cons_self (k : String) (v : JVal) (o : JObj) :
    lookupJ ((k, v) :: o) k = v := by
  simp [lookupJ, List.find?]

lemma lookupJ_cons_ne (k' k : String) (v : JVal) (o : JObj) (h : k' ≠ k) :
    lookupJ ((k', v) :: o) k = lookupJ o k := by
  simp [lookupJ, List.find?, h]

lemma hasKeyJ_nil (k : String) : hasKeyJ [] k = false := rfl

lemma hasKeyJ_cons (k' k : String) (v : JVal) (o : JObj) :
    hasKeyJ ((k', v) :: o) k = (decide (k' = k) || hasKeyJ o k) := by
  simp [hasKeyJ]

lemma hasKeyJ_append (a b : JObj) (k : String) :
    hasKeyJ (a ++ b) k = (hasKeyJ a k || hasKeyJ b k) := by
  simp [hasKeyJ, List.any_append]

lemma hasKeyJ_iff (o : JObj) (k : String) :
    hasKeyJ o k = true ↔ ∃ v, (k, v) ∈ o := by
  constructor
  · intro h
    rcases List.any_eq_true.mp h with ⟨kv, hmem, hk⟩
    have hk' : kv.1 = k := decide_eq_true_eq.mp hk
    refine ⟨kv.2, ?_⟩
    have hmem' : (kv.1, kv.2) ∈ o := hmem
    rwa [hk'] at hmem'
  · rintro ⟨v, hv⟩
    exact List.any_eq_true.mpr ⟨(k, v), hv, by simp⟩

lemma lookupJ_eq_undef_of_not_hasKey (o : JObj) (k : String)
    (h : hasKeyJ o k = false) : lookupJ o k = JVal.undef := by
  induction o with
  | nil => rfl
  | cons kv rest ih =>
      rw [hasKeyJ_cons] at h
      rcases Bool.or_eq_false_iff.mp h with ⟨h1, h2⟩
      have hne : kv.1 ≠ k := by simpa using h1
      rw [show kv = (kv.1, kv.2) from rfl, lookupJ_cons_ne _ _ _ _ hne]
      exact ih h2

lemma lookupJ_eq_of_mem (o : JObj) (k : String) (v : JVal)
    (hnd : (o.map Prod.fst).Nodup) (hmem : (k, v) ∈ o) : lookupJ o k = v := by
  induction o with
  | nil => cases hmem
  | cons kv rest ih =>
      rcases List.mem_cons.mp hmem with h | h
      · rw [← h]
        exact lookupJ_cons_self _ _ _
      · have hk : k ∈ rest.map Prod.fst :=
          List.mem_map.mpr ⟨(k, v), h, rfl⟩
        have hne : kv.1 ≠ k := by
          intro he
          exact (List.nodup_cons.mp hnd).1 (he ▸ hk)
        rw [show kv = (kv.1, kv.2) from rfl, lookupJ_cons_ne _ _ _ _ hne]
        exact ih (List.nodup_cons.mp hnd).2 h

lemma mem_of_hasKeyJ (o : JObj) (k : String) (h : hasKeyJ o k = true) :
    (k, lookupJ o k) ∈ o := by
  induction o with
  | nil => simp [hasKeyJ] at h
  | cons kv rest ih =>
      by_cases hk : kv.1 = k
      · have hl : lookupJ (kv :: rest) k = kv.2 := by
          rw [show kv = (kv.1, kv.2) from rfl, hk, lookupJ_cons_self]
        rw [hl]
        have he : (k, kv.2) = kv := by rw [← hk]
        rw [he]
        exact List.mem_cons_self _ _
      · rw [hasKeyJ_cons] at h
        have h2 : hasKeyJ rest k = true := by
          rcases Bool.or_eq_true_iff.mp h with h1 | h1
          · exact absurd (decide_eq_true_eq.mp h1) hk
          · exact h1
        rw [show kv = (kv.1, kv.2) from rfl, lookupJ_cons_ne _ _ _ _ hk]
        exact List.mem_cons_of_mem _ (ih h2)

lemma lookupJ_objSet (o : JObj) (k' k : String) (v : JVal) :
    lookupJ (objSet o k' v) k = if k = k' then v else lookupJ o k := by
  induction o with
  | nil =>
      by_cases h : k = k'
      · subst h
        rw [if_pos rfl]
        exact lookupJ_cons_self _ _ _
      · rw [if_neg h]
        show lookupJ [(k', v)] k = lookupJ [] k
        rw [lookupJ_cons_ne _ _ _ _ (Ne.symm h)]
  | cons kv rest ih =>
      by_cases hh : kv.1 = k'
      · rw [show objSet (kv :: rest) k' v = (k', v) :: rest by
              simp [objSet, hh]]
        by_cases h : k = k'
        · subst h; simp [lookupJ_cons_self]
        · rw [lookupJ_cons_ne _ _ _ _ (Ne.symm h), if_neg h,
            show kv = (kv.1, kv.2) from rfl, hh,
            lookupJ_cons_ne _ _ _ _ (Ne.symm h)]
      · rw [show objSet (kv :: rest) k' v = kv :: objSet rest k' v by
              simp [objSet, hh]]
        by_cases hk : kv.1 = k
        · have hkk' : ¬ k = k' := fun he => hh (hk.trans he)
          rw [if_neg hkk', show kv = (kv.1, kv.2) from rfl, hk,
            lookupJ_cons_self, lookupJ_cons_self]
        · rw [show kv = (kv.1, kv.2) from rfl, lookupJ_cons_ne _ _ _ _ hk,
            lookupJ_cons_ne _ _ _ _ hk, ih]

lemma hasKeyJ_objSet (o : JObj) (k' k : String) (v : JVal) :
    hasKeyJ (objSet o k' v) k = (decide (k = k') || hasKeyJ o k) := by
  induction o with
  | nil =>
      show hasKeyJ [(k', v)] k = (decide (k = k') || hasKeyJ [] k)
      rw [hasKeyJ_cons, hasKeyJ_nil]
      simp [eq_comm]
  | cons kv rest ih =>
      by_cases hh : kv.1 = k'
      · rw [show objSet (kv :: rest) k' v = (k', v) :: rest by
              simp [objSet, hh]]
        rw [hasKeyJ_cons, show kv = (kv.1, kv.2) from rfl, hasKeyJ_cons, hh]
        by_cases h : k' = k
        · simp [h, eq_comm]
        · have h2 : ¬ k = k' := fun hx => h (Eq.symm hx)
          simp [h, h2]
      · rw [show objSet (kv :: rest) k' v = kv :: objSet rest k' v by
              simp [objSet, hh]]
        rw [show kv = (kv.1, kv.2) from rfl, hasKeyJ_cons, hasKeyJ_cons, ih]
        cases h1 : decide (kv.1 = k) <;> cases h2 : decide (k = k') <;> simp

lemma objSet_eq_append (o : JObj) (k : String) (v : JVal)
    (h : hasKeyJ o k = false) : objSet o k v = o ++ [(k, v)] := by
  induction o with
  | nil => rfl
  | cons kv rest ih =>
      rw [hasKeyJ_cons] at h
      rcases Bool.or_eq_false_iff.mp h with ⟨h1, h2⟩
      have hne : kv.1 ≠ k := by simpa using h1
      rw [show objSet (kv :: rest) k v = kv :: objSet rest k v by
            simp [objSet, hne]]
      rw [ih h2]
      rfl

lemma hasKeyJ_objDelete_self (o : JObj) (k : String) :
    hasKeyJ (objDelete o k) k = false := by
  rw [Bool.eq_false_iff]
  intro h
  rcases List.any_eq_true.mp h with ⟨kv, hmem, hk⟩
  have := (List.mem_filter.mp hmem).2
  simp [decide_eq_true_eq.mp hk] at this

lemma hasKeyJ_objDelete_of_not (o : JObj) (k' k : String)
    (h : hasKeyJ o k = false) : hasKeyJ (objDelete o k') k = false := by
  rw [Bool.eq_false_iff]
  intro hc
  rcases List.any_eq_true.mp hc with ⟨kv, hmem, hk⟩
  have hmem' := (List.mem_filter.mp hmem).1
  exact (Bool.eq_false_iff.mp h) (List.any_eq_true.mpr ⟨kv, hmem', hk⟩)

end ObjLemmas

section CompareLemmas

/-- The test applied by the compare loop to one entry of `new_obj`. -/
def compareCond (old_obj : JObj) (whitelist : List String)
    (kv : String × JVal) : Bool :=
  decide (lookupJ old_obj kv.1 ≠ kv.2 ∧ kv.1 ∈ whitelist)

lemma compareAux_eq (old_obj : JObj) (wl : List String)
    (l : List (String × JVal)) :
    ∀ (fwd rev : JObj),
      (l.map Prod.fst).Nodup →
      (∀ k ∈ l.map Prod.fst, hasKeyJ fwd k = false) →
      (∀ k ∈ l.map Prod.fst, hasKeyJ rev k = false) →
      compareAux old_obj wl l fwd rev =
        (fwd ++ l.filter (compareCond old_obj wl),
         rev ++ (l.filter (compareCond old_obj wl)).map
           (fun kv => (kv.1, lookupJ old_obj kv.1))) := by
  induction l with
  | nil =>
      intro fwd rev _ _ _
      simp [compareAux]
  | cons kv rest ih =>
      intro fwd rev hnd hf hr
      obtain ⟨k, v⟩ := kv
      have hk_not : k ∉ rest.map Prod.fst :=
        (List.nodup_cons.mp (by simpa using hnd)).1
      have hnd' : (rest.map Prod.fst).Nodup :=
        (List.nodup_cons.mp (by simpa using hnd)).2
      by_cases hc : lookupJ old_obj k ≠ v ∧ k ∈ wl
      · have hstep : compareAux old_obj wl ((k, v) :: rest) fwd rev
            = compareAux old_obj wl rest (objSet fwd k v)
                (objSet rev k (lookupJ old_obj k)) := by
          simp [compareAux, hc]
        have hfk : hasKeyJ fwd k = false := hf k (by simp)
        have hrk : hasKeyJ rev k = false := hr k (by simp)
        have hf' : ∀ k' ∈ rest.map Prod.fst,
            hasKeyJ (fwd ++ [(k, v)]) k' = false := by
          intro k' hk'
          have hkk' : ¬ k = k' := fun he => hk_not (he ▸ hk')
          rw [hasKeyJ_append]
          have h2 : hasKeyJ [(k, v)] k' = false := by
            rw [hasKeyJ_cons, hasKeyJ_nil]
            simp [hkk']
          simp [hf k' (by simp [hk']), h2]
        have hr' : ∀ k' ∈ rest.map Prod.fst,
            hasKeyJ (rev ++ [(k, lookupJ old_obj k)]) k' = false := by
          intro k' hk'
          have hkk' : ¬ k = k' := fun he => hk_not (he ▸ hk')
          rw [hasKeyJ_append]
          have h2 : hasKeyJ [(k, lookupJ old_obj k)] k' = false := by
            rw [hasKeyJ_cons, hasKeyJ_nil]
            simp [hkk']
          simp [hr k' (by simp [hk']), h2]
        rw [hstep, objSet_eq_append _ _ _ hfk, objSet_eq_append _ _ _ hrk,
          ih (fwd ++ [(k, v)]) (rev ++ [(k, lookupJ old_obj k)]) hnd' hf' hr']
        simp [List.filter_cons, compareCond, hc, List.append_assoc]
      · have hstep : compareAux old_obj wl ((k, v) :: rest) fwd rev
            = compareAux old_obj wl rest fwd rev := by
          simp [compareAux, hc]
        rw [hstep, ih fwd rev hnd' (fun k' hk' => hf k' (by simp [hk']))
          (fun k' hk' => hr k' (by simp [hk']))]
        simp [List.filter_cons, compareCond, hc]

lemma compare_eq_filter (old_obj new_obj : JObj) (wl : List String)
    (hnd : (new_obj.map Prod.fst).Nodup) :
    compare old_obj new_obj wl =
      (new_obj.filter (compareCond old_obj wl),
       (new_obj.filter (compareCond old_obj wl)).map
         (fun kv => (kv.1, lookupJ old_obj kv.1))) := by
  rw [compare, compareAux_eq old_obj wl new_obj [] [] hnd
    (fun k _ => rfl) (fun k _ => rfl)]
  simp

lemma nodup_keys_filter (l : List (String × JVal)) (p : String × JVal → Bool)
    (hnd : (l.map Prod.fst).Nodup) : ((l.filter p).map Prod.fst).Nodup :=
  List.Nodup.sublist (List.Sublist.map Prod.fst (List.filter_sublist l)) hnd

lemma keys_compare_snd (old_obj new_obj : JObj) (wl : List String)
    (hnd : (new_obj.map Prod.fst).Nodup) :
    (compare old_obj new_obj wl).2.map Prod.fst
      = (compare old_obj new_obj wl).1.map Prod.fst := by
  rw [compare_eq_filter _ _ _ hnd]
  simp

lemma mem_keys_compare_fst (old_obj new_obj : JObj) (wl : List String)
    (hnd : (new_obj.map Prod.fst).Nodup) (k : String) :
    k ∈ (compare old_obj new_obj wl).1.map Prod.fst ↔
      (k ∈ wl ∧ hasKeyJ new_obj k = true
        ∧ lookupJ old_obj k ≠ lookupJ new_obj k) := by
  rw [compare_eq_filter _ _ _ hnd]
  constructor
  · intro h
    rcases List.mem_map.mp h with ⟨kv, hkv, hk⟩
    rcases List.mem_filter.mp hkv with ⟨hmem, hcond⟩
    rcases decide_eq_true_eq.mp hcond with ⟨hne, hwl⟩
    subst hk
    refine ⟨hwl, ?_, ?_⟩
    · exact (hasKeyJ_iff _ _).mpr ⟨kv.2, by
        have : (kv.1, kv.2) ∈ new_obj := hmem
        exact this⟩
    · have hv : lookupJ new_obj kv.1 = kv.2 :=
        lookupJ_eq_of_mem _ _ _ hnd (by exact hmem)
      rw [hv]
      exact hne
  · rintro ⟨hwl, hk, hne⟩
    have hmem : (k, lookupJ new_obj k) ∈ new_obj := mem_of_hasKeyJ _ _ hk
    refine List.mem_map.mpr ⟨(k, lookupJ new_obj k), ?_, rfl⟩
    exact List.mem_filter.mpr ⟨hmem, decide_eq_true_eq.mpr ⟨hne, hwl⟩⟩

lemma lookup_compare_of_mem (old_obj new_obj : JObj) (wl : List String)
    (hnd : (new_obj.map Prod.fst).Nodup) (k : String)
    (h : k ∈ (compare old_obj new_obj wl).1.map Prod.fst) :
    lookupJ (compare old_obj new_obj wl).1 k = lookupJ new_obj k
    ∧ lookupJ (compare old_obj new_obj wl).2 k = lookupJ old_obj k := by
  rw [compare_eq_filter _ _ _ hnd] at h ⊢
  rcases List.mem_map.mp h with ⟨kv, hkv, hk⟩
  subst hk
  have hmem : kv ∈ new_obj := (List.mem_filter.mp hkv).1
  have hnd1 : ((new_obj.filter (compareCond old_obj wl)).map Prod.fst).Nodup :=
    nodup_keys_filter _ _ hnd
  have hnd2 : (((new_obj.filter (compareCond old_obj wl)).map
      (fun kv => (kv.1, lookupJ old_obj kv.1))).map Prod.fst).Nodup := by
    rw [List.map_map]
    exact hnd1
  constructor
  · have h1 : lookupJ (new_obj.filter (compareCond old_obj wl)) kv.1 = kv.2 :=
      lookupJ_eq_of_mem _ _ _ hnd1 (by
        have : (kv.1, kv.2) ∈ new_obj.filter (compareCond old_obj wl) := hkv
        exact this)
    have h2 : lookupJ new_obj kv.1 = kv.2 :=
      lookupJ_eq_of_mem _ _ _ hnd (by
        have : (kv.1, kv.2) ∈ new_obj := hmem
        exact this)
    rw [h1, h2]
  · exact lookupJ_eq_of_mem _ _ _ hnd2
      (List.mem_map.mpr ⟨kv, hkv, rfl⟩)

/-- C3: for any old and new objects and any whitelist, the forward and
reverse patches of `compare` carry the same keys; a key is carried exactly
when it is whitelisted, present in the new object, and its old and new values
differ under strict inequality; on a carried key the forward patch holds the
new value and the reverse patch the old value; and when no key qualifies both
patches are the empty object. -/
theorem compare_spec (old_obj new_obj : JObj) (wl : List String)
    (hnd : (new_obj.map Prod.fst).Nodup) :
    ((compare old_obj new_obj wl).2.map Prod.fst
        = (compare old_obj new_obj wl).1.map Prod.fst)
    ∧ (∀ k, k ∈ (compare old_obj new_obj wl).1.map Prod.fst ↔
          (k ∈ wl ∧ hasKeyJ new_obj k = true
            ∧ lookupJ old_obj k ≠ lookupJ new_obj k))
    ∧ (∀ k, k ∈ (compare old_obj new_obj wl).1.map Prod.fst →
          lookupJ (compare old_obj new_obj wl).1 k = lookupJ new_obj k
          ∧ lookupJ (compare old_obj new_obj wl).2 k = lookupJ old_obj k)
    ∧ ((∀ k, ¬ (k ∈ wl ∧ hasKeyJ new_obj k = true
            ∧ lookupJ old_obj k ≠ lookupJ new_obj k)) →
        compare old_obj new_obj wl = ([], [])) := by
  refine ⟨keys_compare_snd _ _ _ hnd, mem_keys_compare_fst _ _ _ hnd,
    lookup_compare_of_mem _ _ _ hnd, ?_⟩
  intro hnone
  have hfst : (compare old_obj new_obj wl).1 = [] := by
    by_contra hne
    rcases List.exists_mem_of_ne_nil _ hne with ⟨kv, hkv⟩
    have : kv.1 ∈ (compare old_obj new_obj wl).1.map Prod.fst :=
      List.mem_map.mpr ⟨kv, hkv, rfl⟩
    exact hnone kv.1 ((mem_keys_compare_fst _ _ _ hnd kv.1).mp this)
  have hsnd : (compare old_obj new_obj wl).2 = [] := by
    have h := keys_compare_snd old_obj new_obj wl hnd
    rw [hfst] at h
    simp only [List.map_nil] at h
    exact List.map_eq_nil_iff.mp h
  calc compare old_obj new_obj wl
      = ((compare old_obj new_obj wl).1, (compare old_obj new_obj wl).2) := rfl
    _ = ([], []) := by rw [hfst, hsnd]

/-- Witness for `compare_spec` at a concrete pair of objects. -/
theorem compare_spec_witness :
    lookupJ (compare [("location_name", JVal.str "x")]
        [("location_name", JVal.str "y")] BUILDING_FIELD_WHITELIST).1
        "location_name" = JVal.str "y" := by
  have h := compare_spec [("location_name", JVal.str "x")]
    [("location_name", JVal.str "y")] BUILDING_FIELD_WHITELIST (by decide)
  have := (h.2.2.1 "location_name" (by decide)).1
  rw [this]
  decide

lemma filter_map_swap (wl : List String) :
    ∀ (old_obj new_obj : JObj),
      old_obj.map Prod.fst = new_obj.map Prod.fst →
      (old_obj.map Prod.fst).Nodup →
      old_obj.filter (compareCond new_obj wl)
        = (new_obj.filter (compareCond old_obj wl)).map
            (fun kv => (kv.1, lookupJ old_obj kv.1)) := by
  intro old_obj
  induction old_obj with
  | nil =>
      intro new_obj hk _
      have hk' : ([] : List String) = new_obj.map Prod.fst := by simpa using hk
      have hnil : new_obj = [] := List.map_eq_nil_iff.mp hk'.symm
      subst hnil
      rfl
  | cons kv o' ih =>
      intro new_obj hk hnd
      obtain ⟨k, vo⟩ := kv
      cases new_obj with
      | nil => simp at hk
      | cons kv' n' =>
          obtain ⟨k1, vn⟩ := kv'
          rw [List.map_cons, List.map_cons] at hk
          injection hk with hhead htl
          simp only at hhead
          subst hhead
          have hk_not : k ∉ o'.map Prod.fst :=
            (List.nodup_cons.mp (by simpa using hnd)).1
          have hk_not' : k ∉ n'.map Prod.fst := htl ▸ hk_not
          have hnd' : (o'.map Prod.fst).Nodup :=
            (List.nodup_cons.mp (by simpa using hnd)).2
          have hlo : lookupJ ((k, vo) :: o') k = vo := lookupJ_cons_self _ _ _
          have hln : lookupJ ((k, vn) :: n') k = vn := lookupJ_cons_self _ _ _
          have hcongr_o : ∀ kv2 ∈ o',
              compareCond ((k, vn) :: n') wl kv2 = compareCond n' wl kv2 := by
            intro kv2 hkv2
            have hne : k ≠ kv2.1 := fun he =>
              hk_not (he ▸ List.mem_map.mpr ⟨kv2, hkv2, rfl⟩)
            show decide (lookupJ ((k, vn) :: n') kv2.1 ≠ kv2.2 ∧ kv2.1 ∈ wl)
              = decide (lookupJ n' kv2.1 ≠ kv2.2 ∧ kv2.1 ∈ wl)
            rw [lookupJ_cons_ne _ _ _ _ hne]
          have hcongr_n : ∀ kv2 ∈ n',
              compareCond ((k, vo) :: o') wl kv2 = compareCond o' wl kv2 := by
            intro kv2 hkv2
            have hkey : kv2.1 ∈ n'.map Prod.fst := List.mem_map.mpr ⟨kv2, hkv2, rfl⟩
            have hne : k ≠ kv2.1 := fun he => hk_not' (he ▸ hkey)
            show decide (lookupJ ((k, vo) :: o') kv2.1 ≠ kv2.2 ∧ kv2.1 ∈ wl)
              = decide (lookupJ o' kv2.1 ≠ kv2.2 ∧ kv2.1 ∈ wl)
            rw [lookupJ_cons_ne _ _ _ _ hne]
          have hmap_g : ∀ kv2 ∈ n'.filter (compareCond o' wl),
              (fun kv3 : String × JVal =>
                  (kv3.1, lookupJ ((k, vo) :: o') kv3.1)) kv2
                = (fun kv3 : String × JVal => (kv3.1, lookupJ o' kv3.1)) kv2 := by
            intro kv2 hkv2
            have hmem : kv2 ∈ n' := (List.mem_filter.mp hkv2).1
            have hkey : kv2.1 ∈ n'.map Prod.fst := List.mem_map.mpr ⟨kv2, hmem, rfl⟩
            have hne : k ≠ kv2.1 := fun he => hk_not' (he ▸ hkey)
            show ((kv2.1, lookupJ ((k, vo) :: o') kv2.1) : String × JVal)
              = (kv2.1, lookupJ o' kv2.1)
            rw [lookupJ_cons_ne _ _ _ _ hne]
          by_cases hc : vn ≠ vo ∧ k ∈ wl
          · have hc1 : compareCond ((k, vn) :: n') wl (k, vo) = true := by
              show decide (lookupJ ((k, vn) :: n') k ≠ vo ∧ k ∈ wl) = true
              rw [hln]
              exact decide_eq_true_eq.mpr hc
            have hc2 : compareCond ((k, vo) :: o') wl (k, vn) = true := by
              show decide (lookupJ ((k, vo) :: o') k ≠ vn ∧ k ∈ wl) = true
              rw [hlo]
              exact decide_eq_true_eq.mpr ⟨Ne.symm hc.1, hc.2⟩
            rw [List.filter_cons_of_pos hc1, List.filter_cons_of_pos hc2,
              List.map_cons]
            rw [hlo, List.filter_congr hcongr_o, List.filter_congr hcongr_n,
              List.map_congr_left hmap_g, ih n' htl hnd']
          · have hc1 : compareCond ((k, vn) :: n') wl (k, vo) = false := by
              show decide (lookupJ ((k, vn) :: n') k ≠ vo ∧ k ∈ wl) = false
              rw [hln]
              exact decide_eq_false_iff_not.mpr hc
            have hc2 : compareCond ((k, vo) :: o') wl (k, vn) = false := by
              show decide (lookupJ ((k, vo) :: o') k ≠ vn ∧ k ∈ wl) = false
              rw [hlo]
              exact decide_eq_false_iff_not.mpr
                (fun hx => hc ⟨Ne.symm hx.1, hx.2⟩)
            rw [List.filter_cons_of_neg (by simp [hc1]),
              List.filter_cons_of_neg (by simp [hc2])]
            rw [List.filter_congr hcongr_o, List.filter_congr hcongr_n,
              List.map_congr_left hmap_g, ih n' htl hnd']

/-- C8: for objects of the same shape, running the diff in the opposite
direction returns the same two patches with forward and reverse swapped. -/
theorem compare_swap (old_obj new_obj : JObj) (wl : List String)
    (hk : old_obj.map Prod.fst = new_obj.map Prod.fst)
    (hnd : (new_obj.map Prod.fst).Nodup) :
    compare new_obj old_obj wl
      = ((compare old_obj new_obj wl).2, (compare old_obj new_obj wl).1) := by
  have hndo : (old_obj.map Prod.fst).Nodup := by rw [hk]; exact hnd
  rw [compare_eq_filter new_obj old_obj wl hndo,
    compare_eq_filter old_obj new_obj wl hnd]
  have h1 : old_obj.filter (compareCond new_obj wl)
      = (new_obj.filter (compareCond old_obj wl)).map
          (fun kv => (kv.1, lookupJ old_obj kv.1)) :=
    filter_map_swap wl old_obj new_obj hk hndo
  refine Prod.ext h1 ?_
  rw [h1, List.map_map]
  have hmap : ∀ kv ∈ new_obj.filter (compareCond old_obj wl),
      ((fun kv2 => ((kv2 : String × JVal).1, lookupJ new_obj kv2.1)) ∘
        (fun kv2 => (kv2.1, lookupJ old_obj kv2.1))) kv = kv := by
    intro kv hkv
    have hmem : kv ∈ new_obj := (List.mem_filter.mp hkv).1
    have hv : lookupJ new_obj kv.1 = kv.2 :=
      lookupJ_eq_of_mem _ _ _ hnd (by
        have : (kv.1, kv.2) ∈ new_obj := hmem
        exact this)
    simp [Function.comp, hv]
  rw [List.map_congr_left hmap]
  simp

/-- Witness for `compare_swap` at a concrete pair of objects. -/
theorem compare_swap_witness :
    compare [("location_name", JVal.str "y"), ("date_year", JVal.num 1900)]
        [("location_name", JVal.str "x"), ("date_year", JVal.num 1900)]
        BUILDING_FIELD_WHITELIST
      = ((compare [("location_name", JVal.str "x"), ("date_year", JVal.num 1900)]
            [("location_name", JVal.str "y"), ("date_year", JVal.num 1900)]
            BUILDING_FIELD_WHITELIST).2,
         (compare [("location_name", JVal.str "x"), ("date_year", JVal.num 1900)]
            [("location_name", JVal.str "y"), ("date_year", JVal.num 1900)]
            BUILDING_FIELD_WHITELIST).1) :=
  compare_swap _ _ _ (by decide) (by decide)

lemma hasKeyJ_iff_mem_keys (o : JObj) (k : String) :
    hasKeyJ o k = true ↔ k ∈ o.map Prod.fst := by
  rw [hasKeyJ_iff]
  constructor
  · rintro ⟨v, hv⟩
    exact List.mem_map.mpr ⟨(k, v), hv, rfl⟩
  · intro h
    rcases List.mem_map.mp h with ⟨kv, hkv, he⟩
    refine ⟨kv.2, ?_⟩
    have hkv' : (kv.1, kv.2) ∈ o := hkv
    rwa [he] at hkv'

lemma lookupJ_applyPatch (p : JObj) :
    ∀ (o : JObj) (k : String), (p.map Prod.fst).Nodup →
      lookupJ (applyPatch o p) k
        = if hasKeyJ p k then lookupJ p k else lookupJ o k := by
  induction p with
  | nil =>
      intro o k _
      simp [applyPatch, hasKeyJ]
  | cons kv p' ih =>
      intro o k hnd
      obtain ⟨k', v⟩ := kv
      have hnd' : (p'.map Prod.fst).Nodup :=
        (List.nodup_cons.mp (by simpa using hnd)).2
      have hk_not : k' ∉ p'.map Prod.fst :=
        (List.nodup_cons.mp (by simpa using hnd)).1
      have happ : applyPatch o ((k', v) :: p') = applyPatch (objSet o k' v) p' := rfl
      rw [happ, ih (objSet o k' v) k hnd']
      by_cases hp : hasKeyJ p' k = true
      · have hkk : k ≠ k' := by
          intro he
          exact hk_not (he ▸ (hasKeyJ_iff_mem_keys _ _).mp hp)
        have h1 : hasKeyJ ((k', v) :: p') k = true := by
          rw [hasKeyJ_cons, hp]
          simp
        rw [if_pos hp, if_pos h1, lookupJ_cons_ne _ _ _ _ (Ne.symm hkk)]
      · rw [if_neg hp, lookupJ_objSet]
        by_cases hk : k = k'
        · subst hk
          have h1 : hasKeyJ ((k, v) :: p') k = true := by
            rw [hasKeyJ_cons]
            simp
          rw [if_pos rfl, if_pos h1, lookupJ_cons_self]
        · have h1 : hasKeyJ ((k', v) :: p') k = hasKeyJ p' k := by
            rw [hasKeyJ_cons]
            have : ¬ k' = k := fun he => hk he.symm
            simp [this]
          rw [if_neg hk, h1, if_neg hp]

/-- C9: for objects of the same shape, applying the forward patch to the old
object matches the new object on every whitelisted field, and applying the
paired reverse patch to that result restores the old object on every
whitelisted field. -/
theorem compare_apply_restore (old_obj new_obj : JObj) (wl : List String)
    (hk : old_obj.map Prod.fst = new_obj.map Prod.fst)
    (hnd : (new_obj.map Prod.fst).Nodup) (k : String) (hw : k ∈ wl) :
    lookupJ (applyPatch old_obj (compare old_obj new_obj wl).1) k
        = lookupJ new_obj k
    ∧ lookupJ (applyPatch
          (applyPatch old_obj (compare old_obj new_obj wl).1)
          (compare old_obj new_obj wl).2) k
        = lookupJ old_obj k := by
  have hkeys := keys_compare_snd old_obj new_obj wl hnd
  have hndF : ((compare old_obj new_obj wl).1.map Prod.fst).Nodup := by
    rw [compare_eq_filter _ _ _ hnd]
    exact nodup_keys_filter _ _ hnd
  have hndR : ((compare old_obj new_obj wl).2.map Prod.fst).Nodup := by
    rw [hkeys]
    exact hndF
  have hhasR : hasKeyJ (compare old_obj new_obj wl).2 k
      = hasKeyJ (compare old_obj new_obj wl).1 k := by
    by_cases h : hasKeyJ (compare old_obj new_obj wl).1 k = true
    · rw [h]
      rw [hasKeyJ_iff_mem_keys, hkeys]
      exact (hasKeyJ_iff_mem_keys _ _).mp h
    · rw [Bool.eq_false_iff.mpr h, Bool.eq_false_iff]
      intro hc
      exact h ((hasKeyJ_iff_mem_keys _ _).mpr
        (hkeys ▸ (hasKeyJ_iff_mem_keys _ _).mp hc))
  have h1 : lookupJ (applyPatch old_obj (compare old_obj new_obj wl).1) k
      = lookupJ new_obj k := by
    rw [lookupJ_applyPatch _ _ _ hndF]
    by_cases hF : hasKeyJ (compare old_obj new_obj wl).1 k = true
    · rw [if_pos hF]
      exact (lookup_compare_of_mem old_obj new_obj wl hnd k
        ((hasKeyJ_iff_mem_keys _ _).mp hF)).1
    · rw [if_neg hF]
      by_cases hn : hasKeyJ new_obj k = true
      · by_cases hne : lookupJ old_obj k = lookupJ new_obj k
        · exact hne
        · exact absurd ((hasKeyJ_iff_mem_keys _ _).mpr
            ((mem_keys_compare_fst old_obj new_obj wl hnd k).mpr
              ⟨hw, hn, hne⟩)) hF
      · have ho : hasKeyJ old_obj k = false := by
          rw [Bool.eq_false_iff]
          intro hc
          exact (Bool.eq_false_iff.mp (Bool.not_eq_true _ ▸
            Bool.of_not_eq_true hn)) ((hasKeyJ_iff_mem_keys _ _).mpr
              (hk ▸ (hasKeyJ_iff_mem_keys _ _).mp hc))
        rw [lookupJ_eq_undef_of_not_hasKey _ _ ho,
          lookupJ_eq_undef_of_not_hasKey _ _ (Bool.not_eq_true _ ▸
            Bool.of_not_eq_true hn)]
  refine ⟨h1, ?_⟩
  rw [lookupJ_applyPatch _ _ _ hndR, hhasR]
  by_cases hF : hasKeyJ (compare old_obj new_obj wl).1 k = true
  · rw [if_pos hF]
    exact (lookup_compare_of_mem old_obj new_obj wl hnd k
      ((hasKeyJ_iff_mem_keys _ _).mp hF)).2
  · rw [if_neg hF, lookupJ_applyPatch _ _ _ hndF, if_neg hF]

/-- Witness for `compare_apply_restore` at a concrete pair of objects. -/
theorem compare_apply_restore_witness :
    lookupJ (applyPatch [("location_name", JVal.str "x")]
        (compare [("location_name", JVal.str "x")]
          [("location_name", JVal.str "y")] BUILDING_FIELD_WHITELIST).1)
        "location_name" = lookupJ [("location_name", JVal.str "y")] "location_name"
    ∧ lookupJ (applyPatch
        (applyPatch [("location_name", JVal.str "x")]
          (compare [("location_name", JVal.str "x")]
            [("location_name", JVal.str "y")] BUILDING_FIELD_WHITELIST).1)
        (compare [("location_name", JVal.str "x")]
          [("location_name", JVal.str "y")] BUILDING_FIELD_WHITELIST).2)
        "location_name" = lookupJ [("location_name", JVal.str "x")] "location_name" :=
  compare_apply_restore _ _ _ (by decide) (by decide) "location_name" (by decide)

end CompareLemmas

section SaveLemmas

lemma saveBuilding_eq (ev : StoreEvent) (building_id : Int) (b : JObj)
    (u : Int) (s : DBState) :
    saveBuilding ev building_id b u s = (none, stripReadOnly b, s) := by
  cases ev <;> rfl

lemma saveBuilding_building_arg (ev : StoreEvent) (building_id : Int)
    (b : JObj) (u : Int) (s : DBState) :
    (saveBuilding ev building_id b u s).2.1 = stripReadOnly b := by
  cases ev <;> rfl

end SaveLemmas

section SampleData

/-- A stored building row at revision 0, used for concrete instances. -/
def sampleRow : JObj :=
  [("building_id", JVal.num 1), ("revision_id", JVal.num 0),
   ("geometry_id", JVal.num 5), ("location_name", JVal.str "x")]

/-- A store holding the single sample row, with the log sequence at 1. -/
def sampleState : DBState :=
  { buildings := [sampleRow], logs := [], building_user_likes := [],
    next_log_id := 1 }

/-- A caller-submitted building carrying the current revision 0. -/
def sampleB : JObj :=
  [("revision_id", JVal.num 0), ("location_name", JVal.str "y")]

/-- A caller-submitted building carrying a stale revision. -/
def sampleBStale : JObj :=
  [("revision_id", JVal.num 99), ("location_name", JVal.str "y")]

/-- A store where principal 2 has already liked building 1. -/
def sampleLikeState : DBState :=
  { buildings := [[("building_id", JVal.num 1), ("revision_id", JVal.num 0),
      ("likes_total", JVal.num 1)]],
    logs := [], building_user_likes := [(1, 2)], next_log_id := 1 }

end SampleData

section ClaimSave

/-- C2 (code evaluation): the successful calls the claim speaks about do not
exist — the SELECT of building.js line 97 puts FOR UPDATE before FROM, a
PostgreSQL syntax error, so every `saveBuilding` call aborts, appends zero
log entries and leaves the whole state unchanged by rollback; in particular
no call ever performs the single log append the claim requires of successful
calls, and the record never advances. -/
theorem save_always_rolls_back (ev : StoreEvent) (building_id : Int)
    (b : JObj) (u : Int) (s : DBState) :
    (saveBuilding ev building_id b u s).1 = none
    ∧ (saveBuilding ev building_id b u s).2.2.logs = s.logs
    ∧ (saveBuilding ev building_id b u s).2.2 = s := by
  cases ev <;> exact ⟨rfl, rfl, rfl⟩

/-- C10: `saveBuilding` removes the `building_id`, `revision_id` and
`geometry_id` properties from the caller's building object itself, before the
transaction runs (the removal happens even when the transaction never starts),
so after the call the caller's object no longer carries those three fields. -/
theorem save_strips_readonly_fields (ev : StoreEvent) (building_id : Int)
    (b : JObj) (u : Int) (s : DBState) :
    hasKeyJ (saveBuilding ev building_id b u s).2.1 "building_id" = false
    ∧ hasKeyJ (saveBuilding ev building_id b u s).2.1 "revision_id" = false
    ∧ hasKeyJ (saveBuilding ev building_id b u s).2.1 "geometry_id" = false := by
  rw [saveBuilding_building_arg]
  refine ⟨?_, ?_, ?_⟩
  · exact hasKeyJ_objDelete_of_not _ _ _
      (hasKeyJ_objDelete_of_not _ _ _ (hasKeyJ_objDelete_self _ _))
  · exact hasKeyJ_objDelete_of_not _ _ _ (hasKeyJ_objDelete_self _ _)
  · exact hasKeyJ_objDelete_self _ _

/-- C4 (code evaluation): no `saveBuilding` call ever commits — the broken
SELECT of line 97 aborts every transaction before the log INSERT and the
revision-setting UPDATE can run — so there is no successful call whose
revision marker could equal a store-assigned log identifier, and the stored
rows are never touched. -/
theorem save_success_never (ev : StoreEvent) (building_id : Int) (b : JObj)
    (u : Int) (s : DBState) :
    ((saveBuilding ev building_id b u s).1).isSome = false
    ∧ (saveBuilding ev building_id b u s).2.2.buildings = s.buildings := by
  cases ev <;> exact ⟨rfl, rfl⟩

/-- C1 (counterexample): at a concrete stale-revision call the conflict
result of `saveBuilding` is the same generic `undefined` that an
infrastructure failure produces — the caller cannot tell them apart, so the
claimed distinguishable Conflict outcome does not exist. -/
theorem save_conflict_indistinct_cex :
    (saveBuilding .ok 1 sampleBStale 7 sampleState).1
      = (saveBuilding .fail 1 sampleB 7 sampleState).1
    ∧ (saveBuilding .ok 1 sampleBStale 7 sampleState).1 = none := by
  decide

/-- C1 (amended): when no stored row matches the caller's id and expected
revision, `saveBuilding` rolls back and returns `undefined`, the same generic
value every infrastructure failure returns, leaving the state unchanged. -/
theorem save_conflict_returns_generic (building_id : Int) (b : JObj) (u : Int)
    (s : DBState)
    (h : s.buildings.filter (rowMatches building_id (lookupJ b "revision_id"))
      = []) :
    (saveBuilding .ok building_id b u s).1 = none
    ∧ (saveBuilding .ok building_id b u s).1
        = (saveBuilding .fail building_id b u s).1
    ∧ (saveBuilding .ok building_id b u s).2.2 = s := by
  exact ⟨rfl, rfl, rfl⟩

/-- Witness for `save_conflict_returns_generic` at a concrete stale call. -/
theorem save_conflict_returns_generic_witness :
    (saveBuilding .ok 1 sampleBStale 7 sampleState).1 = none
    ∧ (saveBuilding .ok 1 sampleBStale 7 sampleState).1
        = (saveBuilding .fail 1 sampleBStale 7 sampleState).1
    ∧ (saveBuilding .ok 1 sampleBStale 7 sampleState).2.2 = sampleState :=
  save_conflict_returns_generic 1 sampleBStale 7 sampleState (by decide)

/-- C5 (code evaluation): among `n` serialized `saveBuilding` calls racing on
the same starting revision, not one but zero commit — the broken SELECT of
line 97 aborts every transaction — so all `n` calls return the generic
`undefined` and the store, in particular the record's revision, is exactly
what it was before the race: it never advances by the one step the claim
requires. -/
theorem save_race_no_winner (building_id : Int) (b : JObj) (u : Int)
    (n : Nat) (s : DBState) :
    runRace building_id b u n s = (List.replicate n none, s) := by
  induction n with
  | zero => rfl
  | succ m ih =>
      simp only [runRace, saveBuilding_eq]
      rw [ih, List.replicate_succ]

end ClaimSave

section ClaimLike

/-- C6 (counterexample): at a concrete state where principal 2 already liked
building 1, a second `likeBuilding` returns the same generic `undefined` an
infrastructure failure returns — there is no distinct AlreadyLiked error —
and the state (log, counts) is unchanged. -/
theorem like_duplicate_indistinct_cex :
    (likeBuilding .ok 1 2 sampleLikeState).1
      = (likeBuilding .fail 1 2 sampleLikeState).1
    ∧ likeBuilding .ok 1 2 sampleLikeState = (none, sampleLikeState) := by
  decide

/-- C6 (amended): a duplicate like from a principal who already liked the
record aborts the transaction — no log entry is appended and the record and
counts are unchanged — but the call returns `undefined`, indistinguishable
from the value returned for an infrastructure failure. -/
theorem like_duplicate_rolls_back (building_id user_id : Int) (s : DBState)
    (h : (building_id, user_id) ∈ s.building_user_likes) :
    likeBuilding .ok building_id user_id s = (none, s)
    ∧ (likeBuilding .ok building_id user_id s).1
        = (likeBuilding .fail building_id user_id s).1 := by
  have hok : likeBuilding .ok building_id user_id s = (none, s) := by
    simp only [likeBuilding]
    rw [if_pos h]
  exact ⟨hok, by rw [hok]; rfl⟩

/-- Witness for `like_duplicate_rolls_back` at the concrete duplicate. -/
theorem like_duplicate_rolls_back_witness :
    likeBuilding .ok 1 2 sampleLikeState = (none, sampleLikeState)
    ∧ (likeBuilding .ok 1 2 sampleLikeState).1
        = (likeBuilding .fail 1 2 sampleLikeState).1 :=
  like_duplicate_rolls_back 1 2 sampleLikeState (by decide)

/-- C7: the options object passed by `likeBuilding` holds the serializable
read-write mode under a property named `serializable` instead of the `mode`
option pg-promise reads, so the transaction mode actually applied is absent
(session default isolation), not the serializable read-write mode. -/
theorem like_tx_mode_not_applied :
    appliedTxMode likeTxOptions = none
    ∧ likeTxOptions.serializable = some serializable
    ∧ appliedTxMode likeTxOptions ≠ some serializable := by
  refine ⟨rfl, rfl, ?_⟩
  intro h
  cases h

end ClaimLike

end ColouringLondon
